import Mathlib

/-!
# Verification of the milimg container codec and alpha compositor

The source is a TypeScript module exposing `parseMilimgContainer`,
`decodeAV1Frame`, `combineRGBAFrames` and `decodeMilimg`.

Modelling choices (shallow embedding):

* Byte buffers (`Buffer` / `Uint8Array`) are `List Nat`.
* `Buffer.readUInt32BE` / `Buffer.readBigUInt64BE` are bounds-checked in
  Node; an out-of-bounds read raises a range error, modelled by
  `MilimgError.rangeError`.  The `Number(...)` coercion of the 64-bit
  size is value-preserving for every size a real buffer can have, so the
  size is kept exact as a `Nat`.
* `Buffer.subarray(s, e)` clamps both arguments to the buffer length and
  never fails; it is modelled by `take`/`drop`.
* `toString('ascii')` decoding clears the high bit of every byte
  (Node / npm `buffer` semantics: `String.fromCharCode(byte & 0x7F)`),
  modelled by `% 128` on each byte.
* A decoded `VideoFrame` is a `Plane`: display width, height and the
  row-major RGBA samples a canvas draw of it produces.  Drawing a frame
  at the origin of a fresh (transparent black) canvas and reading the
  canvas back yields the frame's sample where the frame covers the
  canvas and `0` elsewhere.
* The external WebCodecs decoder and the PNG rasterizer are opaque
  collaborators, passed as parameters `decode` and `png`; a rejected
  decode promise is an `Except.error`, a resolved-`null` decode is
  `Except.ok none`.
-/

namespace Milimg

/-- Failure kinds surfaced by the pipeline: the `FormatError` for a bad
magic, the unsupported-version error carrying the version value, the
range error a bounds-checked `Buffer` read raises, and the failure
thrown when no color frame decodes. -/
inductive MilimgError where
  | formatError (msg : String)
  | unsupportedVersion (v : Nat)
  | rangeError
  | decodeFailure (msg : String)
  deriving DecidableEq, Repr

/-- The `MilimgHeader` record returned by `parseMilimgContainer`. -/
structure MilimgHeader where
  version : Nat
  width : Nat
  height : Nat
  colorPayload : List Nat
  alphaPayload : Option (List Nat)
  deriving DecidableEq, Repr

/-- Big-endian 32-bit value of the four bytes at `off` (total function;
used once the bounds check is known to pass). -/
def u32be (buf : List Nat) (off : Nat) : Nat :=
  buf.getD off 0 * 16777216 + buf.getD (off+1) 0 * 65536 +
  buf.getD (off+2) 0 * 256 + buf.getD (off+3) 0

/-- Big-endian 64-bit value of the eight bytes at `off`. -/
def u64be (buf : List Nat) (off : Nat) : Nat :=
  buf.getD off 0 * 72057594037927936 + buf.getD (off+1) 0 * 281474976710656 +
  buf.getD (off+2) 0 * 1099511627776 + buf.getD (off+3) 0 * 4294967296 +
  buf.getD (off+4) 0 * 16777216 + buf.getD (off+5) 0 * 65536 +
  buf.getD (off+6) 0 * 256 + buf.getD (off+7) 0

/-- `buffer.readUInt32BE(off)`: bounds-checked big-endian read. -/
def readUInt32BE (buf : List Nat) (off : Nat) : Except MilimgError Nat :=
  if off + 4 ≤ buf.length then .ok (u32be buf off) else .error .rangeError

/-- `buffer.readBigUInt64BE(off)`: bounds-checked big-endian read. -/
def readBigUInt64BE (buf : List Nat) (off : Nat) : Except MilimgError Nat :=
  if off + 8 ≤ buf.length then .ok (u64be buf off) else .error .rangeError

/-- `buffer.subarray(s, e)`: the bytes from `s` (inclusive) to `e`
(exclusive), both ends clamped to the buffer length. -/
def subarray (buf : List Nat) (s e : Nat) : List Nat := (buf.take e).drop s

/-- The byte codes of the magic string `"Milimg00"`. -/
def milimgMagic : List Nat := [77, 105, 108, 105, 109, 103, 48, 48]

/-- `buffer.subarray(0, 8).toString('ascii')` as a list of character
codes: ascii decoding clears the high bit of every byte. -/
def asciiMagicField (buf : List Nat) : List Nat :=
  (subarray buf 0 8).map (fun b => b % 128)

/-- `parseMilimgContainer`, step for step: magic check, version read and
check, width/height/colorPayloadSize reads, color payload `subarray`,
and for version 1 the alpha size read and alpha payload `subarray`. -/
def parseMilimgContainer (buffer : List Nat) : Except MilimgError MilimgHeader :=
  if asciiMagicField buffer ≠ milimgMagic then
    .error (.formatError "File format error: invalid magic number")
  else
    match readUInt32BE buffer 8 with
    | .error e => .error e
    | .ok version =>
      if version ≠ 0 ∧ version ≠ 1 then .error (.unsupportedVersion version)
      else
        match readUInt32BE buffer 12 with
        | .error e => .error e
        | .ok width =>
          match readUInt32BE buffer 16 with
          | .error e => .error e
          | .ok height =>
            match readBigUInt64BE buffer 20 with
            | .error e => .error e
            | .ok colorPayloadSize =>
              let colorPayload := subarray buffer 28 (28 + colorPayloadSize)
              if version = 1 then
                match readBigUInt64BE buffer (28 + colorPayloadSize) with
                | .error e => .error e
                | .ok alphaPayloadSize =>
                  .ok ⟨version, width, height, colorPayload,
                    some (subarray buffer (28 + colorPayloadSize + 8)
                      (28 + colorPayloadSize + 8 + alphaPayloadSize))⟩
              else
                .ok ⟨version, width, height, colorPayload, none⟩

/-- A decoded `VideoFrame`: display dimensions and the row-major RGBA
samples (4 bytes per pixel) drawing it on a canvas produces. -/
structure Plane where
  width : Nat
  height : Nat
  data : List Nat
  deriving DecidableEq, Repr

/-- Sample `i` of the `ImageData` of a width-`w` canvas onto which
`frame` was drawn at the origin: inside the frame's extent the frame's
own sample, outside it the canvas's transparent black (`0`). -/
def canvasSample (w : Nat) (frame : Plane) (i : Nat) : Nat :=
  if (i / 4) % w < frame.width ∧ (i / 4) / w < frame.height then
    frame.data.getD (4 * (((i / 4) / w) * frame.width + (i / 4) % w) + i % 4) 0
  else 0

/-- `ctx.getImageData(0, 0, w, h).data` after `ctx.drawImage(frame, 0, 0)`
on a fresh `w × h` canvas: a flat RGBA array of `4 * w * h` samples. -/
def getImageData (w h : Nat) (frame : Plane) : List Nat :=
  (List.range (4 * (w * h))).map (canvasSample w frame)

/-- The in-place loop `for (i = 0; i < data.length; i += 4)
data[i+3] = alphaData[i]` written pointwise: sample `i` of the result is
`alphaData[i-3]` at alpha positions (`i % 4 = 3`) and `data[i]`
elsewhere. -/
def overwriteAlpha (data alphaData : List Nat) : List Nat :=
  (List.range data.length).map
    (fun i => if i % 4 = 3 then alphaData.getD (i - 3) 0 else data.getD i 0)

/-- `combineRGBAFrames`: a canvas of the color frame's dimensions is
drawn with the color frame, a second canvas of the same dimensions with
the alpha frame; the alpha channel of the first image is overwritten
with the red channel of the second, and the result is a frame of the
canvas's dimensions. -/
def combineRGBAFrames (colorFrame alphaFrame : Plane) : Plane :=
  { width := colorFrame.width
    height := colorFrame.height
    data := overwriteAlpha
      (getImageData colorFrame.width colorFrame.height colorFrame)
      (getImageData colorFrame.width colorFrame.height alphaFrame) }

/-- `decodeAV1Frame`: an empty payload resolves to `null` without
touching the decoder; otherwise the external WebCodecs decoder `decode`
answers (`.ok none` = resolved `null`, `.error` = rejected promise). -/
def decodeAV1Frame (decode : List Nat → Except MilimgError (Option Plane))
    (payload : List Nat) : Except MilimgError (Option Plane) :=
  if payload.length = 0 then .ok none else decode payload

/-- `decodeMilimg`: parse the container, decode the color payload
(failing with `decodeFailure` when no frame comes back), for version 1
with an alpha payload decode it and composite when a frame comes back,
fall back to the color frame otherwise, and rasterize the final frame
with the external `png` encoder. -/
def decodeMilimg (decode : List Nat → Except MilimgError (Option Plane))
    (png : Plane → List Nat) (buffer : List Nat) : Except MilimgError (List Nat) :=
  match parseMilimgContainer buffer with
  | .error e => .error e
  | .ok header =>
    match decodeAV1Frame decode header.colorPayload with
    | .error e => .error e
    | .ok none => .error (.decodeFailure "Failed to decode color frame")
    | .ok (some colorFrame) =>
      match header.version, header.alphaPayload with
      | 1, some alphaPayload =>
        match decodeAV1Frame decode alphaPayload with
        | .error e => .error e
        | .ok (some alphaFrame) => .ok (png (combineRGBAFrames colorFrame alphaFrame))
        | .ok none => .ok (png colorFrame)
      | _, _ => .ok (png colorFrame)

/-! ## Basic lemmas about the buffer reads -/

theorem readUInt32BE_eq_ok (buf : List Nat) (off : Nat) (h : off + 4 ≤ buf.length) :
    readUInt32BE buf off = .ok (u32be buf off) := by
  simp [readUInt32BE, h]

theorem readBigUInt64BE_eq_ok (buf : List Nat) (off : Nat) (h : off + 8 ≤ buf.length) :
    readBigUInt64BE buf off = .ok (u64be buf off) := by
  simp [readBigUInt64BE, h]

/-- A successful parse of a version-0 buffer, field by field. -/
theorem parse_v0_eq (B : List Nat) (hmagic : asciiMagicField B = milimgMagic)
    (hlen : 28 ≤ B.length) (hv : u32be B 8 = 0) :
    parseMilimgContainer B =
      .ok ⟨0, u32be B 12, u32be B 16, subarray B 28 (28 + u64be B 20), none⟩ := by
  have h8 : readUInt32BE B 8 = .ok 0 := by rw [readUInt32BE_eq_ok B 8 (by omega), hv]
  have h12 := readUInt32BE_eq_ok B 12 (by omega)
  have h16 := readUInt32BE_eq_ok B 16 (by omega)
  have h20 := readBigUInt64BE_eq_ok B 20 (by omega)
  unfold parseMilimgContainer
  rw [if_neg (by simp [hmagic]), h8, h12, h16, h20]
  simp

/-- A successful parse of a version-1 buffer, field by field. -/
theorem parse_v1_eq (B : List Nat) (hmagic : asciiMagicField B = milimgMagic)
    (hlen : 28 + u64be B 20 + 8 ≤ B.length) (hv : u32be B 8 = 1) :
    parseMilimgContainer B =
      .ok ⟨1, u32be B 12, u32be B 16, subarray B 28 (28 + u64be B 20),
        some (subarray B (28 + u64be B 20 + 8)
          (28 + u64be B 20 + 8 + u64be B (28 + u64be B 20)))⟩ := by
  have h8 : readUInt32BE B 8 = .ok 1 := by rw [readUInt32BE_eq_ok B 8 (by omega), hv]
  have h12 := readUInt32BE_eq_ok B 12 (by omega)
  have h16 := readUInt32BE_eq_ok B 16 (by omega)
  have h20 := readBigUInt64BE_eq_ok B 20 (by omega)
  have h28 := readBigUInt64BE_eq_ok B (28 + u64be B 20) (by omega)
  unfold parseMilimgContainer
  rw [if_neg (by simp [hmagic]), h8, h12, h16, h20]
  simp [h28]

/-- Inversion of a successful bounds-checked 32-bit read. -/
theorem readUInt32BE_ok_inv {buf : List Nat} {off v : Nat}
    (h : readUInt32BE buf off = .ok v) :
    off + 4 ≤ buf.length ∧ v = u32be buf off := by
  unfold readUInt32BE at h
  split at h
  next hle =>
    injection h with he
    exact ⟨hle, he.symm⟩
  · cases h

/-- Inversion of a successful bounds-checked 64-bit read. -/
theorem readBigUInt64BE_ok_inv {buf : List Nat} {off v : Nat}
    (h : readBigUInt64BE buf off = .ok v) :
    off + 8 ≤ buf.length ∧ v = u64be buf off := by
  unfold readBigUInt64BE at h
  split at h
  next hle =>
    injection h with he
    exact ⟨hle, he.symm⟩
  · cases h

/-- Inversion of a successful parse: every field of the returned header
is determined by the buffer, together with the bounds checks that the
parse must have passed. -/
theorem parse_ok_facts (B : List Nat) (h : MilimgHeader)
    (hp : parseMilimgContainer B = .ok h) :
    asciiMagicField B = milimgMagic ∧
    28 ≤ B.length ∧
    h.version = u32be B 8 ∧ (h.version = 0 ∨ h.version = 1) ∧
    h.width = u32be B 12 ∧ h.height = u32be B 16 ∧
    h.colorPayload = subarray B 28 (28 + u64be B 20) ∧
    (h.version = 0 → h.alphaPayload = none) ∧
    (h.version = 1 → 28 + u64be B 20 + 8 ≤ B.length ∧
      h.alphaPayload = some (subarray B (28 + u64be B 20 + 8)
        (28 + u64be B 20 + 8 + u64be B (28 + u64be B 20)))) := by
  unfold parseMilimgContainer at hp
  split at hp
  · exact absurd hp (by simp)
  next hmagic =>
  rw [not_not] at hmagic
  split at hp
  · exact absurd hp (by simp)
  next version h8 =>
  split at hp
  · exact absurd hp (by simp)
  next hver =>
  split at hp
  · exact absurd hp (by simp)
  next width h12 =>
  split at hp
  · exact absurd hp (by simp)
  next height h16 =>
  split at hp
  · exact absurd hp (by simp)
  next csize h20 =>
  obtain ⟨hb8, he8⟩ := readUInt32BE_ok_inv h8
  obtain ⟨hb12, he12⟩ := readUInt32BE_ok_inv h12
  obtain ⟨hb16, he16⟩ := readUInt32BE_ok_inv h16
  obtain ⟨hb20, he20⟩ := readBigUInt64BE_ok_inv h20
  have hv01 : version = 0 ∨ version = 1 := by
    by_contra hcon
    push_neg at hcon
    exact hver ⟨hcon.1, hcon.2⟩
  split at hp
  next hv1 =>
    split at hp
    · exact absurd hp (by simp)
    next asize h28 =>
    obtain ⟨hb28, he28⟩ := readBigUInt64BE_ok_inv h28
    injection hp with hp
    subst hp
    subst he8 he12 he16 he20 he28
    refine ⟨hmagic, by omega, rfl, Or.inr hv1, rfl, rfl, rfl, ?_, ?_⟩
    · exact fun h0 => absurd (hv1.symm.trans h0) (by decide)
    · exact fun _ => ⟨hb28, rfl⟩
  next hv1 =>
    injection hp with hp
    subst hp
    subst he8 he12 he16 he20
    have hv0 : u32be B 8 = 0 := by
      rcases hv01 with h0 | h1
      · exact h0
      · exact absurd h1 hv1
    refine ⟨hmagic, by omega, rfl, Or.inl hv0, rfl, rfl, rfl, fun _ => rfl, ?_⟩
    exact fun h1 => absurd (hv0.symm.trans h1) (by decide)

/-! ## Stability of the reads under appended trailing bytes -/

theorem getD_append_left (B T : List Nat) (i : Nat) (h : i < B.length) :
    (B ++ T).getD i 0 = B.getD i 0 :=
  List.getD_append B T 0 i h

theorem u32be_append (B T : List Nat) (off : Nat) (h : off + 4 ≤ B.length) :
    u32be (B ++ T) off = u32be B off := by
  unfold u32be
  rw [getD_append_left B T off (by omega), getD_append_left B T (off+1) (by omega),
    getD_append_left B T (off+2) (by omega), getD_append_left B T (off+3) (by omega)]

theorem u64be_append (B T : List Nat) (off : Nat) (h : off + 8 ≤ B.length) :
    u64be (B ++ T) off = u64be B off := by
  unfold u64be
  rw [getD_append_left B T off (by omega), getD_append_left B T (off+1) (by omega),
    getD_append_left B T (off+2) (by omega), getD_append_left B T (off+3) (by omega),
    getD_append_left B T (off+4) (by omega), getD_append_left B T (off+5) (by omega),
    getD_append_left B T (off+6) (by omega), getD_append_left B T (off+7) (by omega)]

theorem subarray_append (B T : List Nat) (s e : Nat) (h : e ≤ B.length) :
    subarray (B ++ T) s e = subarray B s e := by
  unfold subarray
  rw [List.take_append_of_le_length h]

theorem subarray_of_length_le (buf : List Nat) (s e : Nat) (h : buf.length ≤ e) :
    subarray buf s e = buf.drop s := by
  unfold subarray
  rw [List.take_of_length_le h]

theorem asciiMagicField_append (B T : List Nat) (h : 8 ≤ B.length) :
    asciiMagicField (B ++ T) = asciiMagicField B := by
  unfold asciiMagicField
  rw [subarray_append B T 0 8 h]

/-! ## Inversion of failing reads -/

theorem readUInt32BE_error_inv {buf : List Nat} {off : Nat} {e : MilimgError}
    (h : readUInt32BE buf off = .error e) : e = .rangeError := by
  unfold readUInt32BE at h
  split at h
  · cases h
  · injection h with h
    exact h.symm

theorem readBigUInt64BE_error_inv {buf : List Nat} {off : Nat} {e : MilimgError}
    (h : readBigUInt64BE buf off = .error e) : e = .rangeError := by
  unfold readBigUInt64BE at h
  split at h
  · cases h
  · injection h with h
    exact h.symm

/-! ## Concrete buffers used by witnesses and counterexamples -/

/-- A complete version-0 container: magic, version 0, 1×1, a 2-byte
color payload `[9, 9]`. -/
def exV0Container : List Nat :=
  [77,105,108,105,109,103,48,48, 0,0,0,0, 0,0,0,1, 0,0,0,1,
   0,0,0,0,0,0,0,2, 9,9]

/-- A complete version-1 container: 1-byte color payload `[170]`,
1-byte alpha payload `[187]`. -/
def exV1Container : List Nat :=
  [77,105,108,105,109,103,48,48, 0,0,0,1, 0,0,0,1, 0,0,0,1,
   0,0,0,0,0,0,0,1, 170, 0,0,0,0,0,0,0,1, 187]

/-- The header `parseMilimgContainer` returns for `exV1Container`. -/
def exV1Header : MilimgHeader := ⟨1, 1, 1, [170], some [187]⟩

/-- A version-0 container declaring a 5-byte color payload but carrying
only the 2 trailing bytes `[1, 2]`. -/
def exTruncV0 : List Nat :=
  [77,105,108,105,109,103,48,48, 0,0,0,0, 0,0,0,1, 0,0,0,1,
   0,0,0,0,0,0,0,5, 1,2]

/-- A version-0 container declaring `colorPayloadSize = 1000` but
carrying only 10 trailing bytes. -/
def exTrunc1000 : List Nat :=
  [77,105,108,105,109,103,48,48, 0,0,0,0, 0,0,0,1, 0,0,0,1,
   0,0,0,0,0,0,3,232, 0,1,2,3,4,5,6,7,8,9]

/-- A version-1 container declaring a 5-byte color payload but carrying
only 2 trailing bytes, so the alpha-size read lands out of bounds. -/
def exV1TruncColor : List Nat :=
  [77,105,108,105,109,103,48,48, 0,0,0,1, 0,0,0,1, 0,0,0,1,
   0,0,0,0,0,0,0,5, 1,2]

/-- A container whose first byte is `0xCD` (`0x4D` with the high bit
set) instead of `0x4D = 'M'`; ascii decoding masks it back to `'M'`. -/
def exHiBitMagic : List Nat :=
  [205,105,108,105,109,103,48,48, 0,0,0,0, 0,0,0,1, 0,0,0,1,
   0,0,0,0,0,0,0,0]

/-- A buffer whose first 8 bytes spell `"Milimg01"`. -/
def exBadMagic : List Nat :=
  [77,105,108,105,109,103,48,49, 0,0,0,0, 0,0,0,1, 0,0,0,1,
   0,0,0,0,0,0,0,0]

/-- A buffer with a valid magic whose version field holds `2`. -/
def exVersion2 : List Nat :=
  [77,105,108,105,109,103,48,48, 0,0,0,2, 0,0,0,1]

/-! ## C1 — header layout -/

/-- C1 (amended): for every buffer `parseMilimgContainer` accepts, the
header is read off the buffer in the fixed big-endian layout — version
at offset 8, width at 12, height at 16, the color size at 20, the color
payload starting at 28 and the alpha payload (version 1 only) after its
own size field at `28 + colorPayloadSize` — except that each payload is
the `subarray` clamped to the end of the buffer rather than always
exactly the declared number of bytes; the alpha payload is present iff
the version is 1. -/
theorem parse_header_layout (B : List Nat) (h : MilimgHeader)
    (hp : parseMilimgContainer B = .ok h) :
    h.version = u32be B 8 ∧
    h.width = u32be B 12 ∧
    h.height = u32be B 16 ∧
    h.colorPayload = subarray B 28 (28 + u64be B 20) ∧
    (h.alphaPayload.isSome ↔ h.version = 1) ∧
    (h.version = 1 → h.alphaPayload = some (subarray B (28 + u64be B 20 + 8)
      (28 + u64be B 20 + 8 + u64be B (28 + u64be B 20)))) := by
  obtain ⟨-, -, hv, hv01, hw, hh, hc, hv0a, hv1a⟩ := parse_ok_facts B h hp
  refine ⟨hv, hw, hh, hc, ?_, fun h1 => (hv1a h1).2⟩
  constructor
  · intro hs
    rcases hv01 with h0 | h1
    · rw [hv0a h0] at hs
      simp at hs
    · exact h1
  · intro h1
    rw [(hv1a h1).2]
    rfl

/-- Witness for C1 at the concrete version-1 container. -/
theorem parse_header_layout_witness :
    exV1Header.version = u32be exV1Container 8 ∧
    exV1Header.width = u32be exV1Container 12 ∧
    exV1Header.height = u32be exV1Container 16 ∧
    exV1Header.colorPayload = subarray exV1Container 28 (28 + u64be exV1Container 20) ∧
    (exV1Header.alphaPayload.isSome ↔ exV1Header.version = 1) ∧
    (exV1Header.version = 1 → exV1Header.alphaPayload =
      some (subarray exV1Container (28 + u64be exV1Container 20 + 8)
        (28 + u64be exV1Container 20 + 8 +
          u64be exV1Container (28 + u64be exV1Container 20)))) :=
  parse_header_layout exV1Container exV1Header rfl

/-- Counterexample to C1 as stated: `exTruncV0` is accepted, declares a
5-byte color payload, yet the returned `colorPayload` holds only the 2
bytes that exist after offset 28. -/
theorem parse_header_layout_counterexample :
    parseMilimgContainer exTruncV0 = .ok ⟨0, 1, 1, [1, 2], none⟩ ∧
    u64be exTruncV0 20 = 5 ∧ ([1, 2] : List Nat).length = 2 :=
  ⟨rfl, rfl, rfl⟩

/-! ## C9 — trailing bytes -/

/-- C9 (amended): appending trailing bytes `T` to an accepted buffer
`B` changes nothing — same version, width, height and byte-identical
payloads — provided `B` actually contains its declared payloads in
full; an accepted buffer with a clamped (truncated) payload does not
qualify, because the appended bytes would then be pulled into the
payload. -/
theorem parse_append_stable (B T : List Nat) (h : MilimgHeader)
    (hp : parseMilimgContainer B = .ok h)
    (hcolor : 28 + u64be B 20 ≤ B.length)
    (halpha : h.version = 1 →
      28 + u64be B 20 + 8 + u64be B (28 + u64be B 20) ≤ B.length) :
    parseMilimgContainer (B ++ T) = .ok h := by
  obtain ⟨hmagic, hlen, hv, hv01, hw, hh, hc, hv0a, hv1a⟩ := parse_ok_facts B h hp
  obtain ⟨ver, wid, hei, cp, ap⟩ := h
  dsimp only at hv hv01 hw hh hc hv0a hv1a halpha
  have hm2 : asciiMagicField (B ++ T) = milimgMagic := by
    rw [asciiMagicField_append B T (by omega)]
    exact hmagic
  have hlT : B.length ≤ (B ++ T).length := by simp
  have h8a : u32be (B ++ T) 8 = u32be B 8 := u32be_append B T 8 (by omega)
  have h12a : u32be (B ++ T) 12 = u32be B 12 := u32be_append B T 12 (by omega)
  have h16a : u32be (B ++ T) 16 = u32be B 16 := u32be_append B T 16 (by omega)
  have h20a : u64be (B ++ T) 20 = u64be B 20 := u64be_append B T 20 (by omega)
  subst hv hw hh hc
  rcases hv01 with h0 | h1
  · rw [parse_v0_eq (B ++ T) hm2 (by omega) (by rw [h8a]; exact h0)]
    rw [h12a, h16a, h20a, subarray_append B T 28 (28 + u64be B 20) hcolor,
      hv0a h0, h0]
  · have hb28 := (hv1a h1).1
    have hap := (hv1a h1).2
    have h28a : u64be (B ++ T) (28 + u64be B 20) = u64be B (28 + u64be B 20) :=
      u64be_append B T (28 + u64be B 20) (by omega)
    rw [parse_v1_eq (B ++ T) hm2 (by rw [h20a]; omega) (by rw [h8a]; exact h1)]
    rw [h12a, h16a, h20a, h28a,
      subarray_append B T 28 (28 + u64be B 20) (by omega),
      subarray_append B T (28 + u64be B 20 + 8)
        (28 + u64be B 20 + 8 + u64be B (28 + u64be B 20)) (halpha h1),
      hap, h1]

/-- Witness for C9: a complete version-0 container with one byte
appended parses to the identical header. -/
theorem parse_append_stable_witness :
    parseMilimgContainer (exV0Container ++ [5]) = .ok ⟨0, 1, 1, [9, 9], none⟩ :=
  parse_append_stable exV0Container [5] ⟨0, 1, 1, [9, 9], none⟩ rfl
    (by decide) (by decide)

/-- Counterexample to C9 as stated: `exTruncV0` is accepted, but
appending `[7, 8, 9]` changes the returned color payload, because the
appended bytes fill up the clamped payload. -/
theorem parse_append_stable_counterexample :
    parseMilimgContainer exTruncV0 = .ok ⟨0, 1, 1, [1, 2], none⟩ ∧
    parseMilimgContainer (exTruncV0 ++ [7, 8, 9]) = .ok ⟨0, 1, 1, [1, 2, 7, 8, 9], none⟩ ∧
    (⟨0, 1, 1, [1, 2], none⟩ : MilimgHeader) ≠ ⟨0, 1, 1, [1, 2, 7, 8, 9], none⟩ :=
  ⟨rfl, rfl, by decide⟩

/-! ## C3 — truncated payloads -/

/-- C3 (amended): `parseMilimgContainer` performs no truncation check.
For version 0, a buffer whose remaining bytes fall short of the
declared `colorPayloadSize` is accepted, with the color payload clamped
to the bytes that exist (`drop 28`); for version 1, the alpha-size read
at `28 + colorPayloadSize` then lands out of bounds and the parse fails
with the bounds-check range error — in neither case with
`FormatError("truncated color payload")`. -/
theorem parse_truncated_payload (B : List Nat) :
    (asciiMagicField B = milimgMagic → 28 ≤ B.length → u32be B 8 = 0 →
      B.length < 28 + u64be B 20 →
      parseMilimgContainer B =
        .ok ⟨0, u32be B 12, u32be B 16, B.drop 28, none⟩) ∧
    (asciiMagicField B = milimgMagic → 28 ≤ B.length → u32be B 8 = 1 →
      B.length < 28 + u64be B 20 + 8 →
      parseMilimgContainer B = .error .rangeError) := by
  constructor
  · intro hm hl hv ht
    rw [parse_v0_eq B hm hl hv, subarray_of_length_le B 28 (28 + u64be B 20) (by omega)]
  · intro hm hl hv ht
    have h8 : readUInt32BE B 8 = .ok 1 := by
      rw [readUInt32BE_eq_ok B 8 (by omega), hv]
    have h12 := readUInt32BE_eq_ok B 12 (by omega)
    have h16 := readUInt32BE_eq_ok B 16 (by omega)
    have h20 := readBigUInt64BE_eq_ok B 20 (by omega)
    have h28 : readBigUInt64BE B (28 + u64be B 20) = .error .rangeError := by
      unfold readBigUInt64BE
      rw [if_neg (by omega)]
    unfold parseMilimgContainer
    rw [if_neg (by simp [hm]), h8, h12, h16, h20]
    simp [h28]

/-- Witness for C3 at the two concrete truncated containers. -/
theorem parse_truncated_payload_witness :
    parseMilimgContainer exTrunc1000 =
      .ok ⟨0, u32be exTrunc1000 12, u32be exTrunc1000 16, exTrunc1000.drop 28, none⟩ ∧
    parseMilimgContainer exV1TruncColor = .error .rangeError :=
  ⟨(parse_truncated_payload exTrunc1000).1 (by decide) (by decide) (by decide) (by decide),
   (parse_truncated_payload exV1TruncColor).2 (by decide) (by decide) (by decide) (by decide)⟩

/-- Counterexample to C3 as stated: the container declaring
`colorPayloadSize = 1000` with only 10 trailing bytes is accepted with
the 10 bytes as its color payload, instead of failing with a
`FormatError`. -/
theorem parse_truncated_payload_counterexample :
    parseMilimgContainer exTrunc1000 =
      .ok ⟨0, 1, 1, [0, 1, 2, 3, 4, 5, 6, 7, 8, 9], none⟩ ∧
    u64be exTrunc1000 20 = 1000 ∧ exTrunc1000.length = 38 :=
  ⟨rfl, rfl, rfl⟩

/-! ## C4 — magic check -/

/-- C4 (amended): the parse fails with the invalid-magic `FormatError`
exactly when the first 8 bytes, each with its high bit cleared by the
ascii decoding, do not spell `"Milimg00"`; bytes that differ from the
magic only in their high bit therefore pass the check. -/
theorem parse_magic_check (B : List Nat) :
    parseMilimgContainer B =
        .error (.formatError "File format error: invalid magic number") ↔
      asciiMagicField B ≠ milimgMagic := by
  constructor
  · intro hp hm
    unfold parseMilimgContainer at hp
    rw [if_neg (by simp [hm])] at hp
    split at hp
    next e h8 =>
      have := readUInt32BE_error_inv h8
      subst this
      simp at hp
    next version h8 =>
    split at hp
    · simp at hp
    next hver =>
    split at hp
    next e h12 =>
      have := readUInt32BE_error_inv h12
      subst this
      simp at hp
    next width h12 =>
    split at hp
    next e h16 =>
      have := readUInt32BE_error_inv h16
      subst this
      simp at hp
    next height h16 =>
    split at hp
    next e h20 =>
      have := readBigUInt64BE_error_inv h20
      subst this
      simp at hp
    next csize h20 =>
    split at hp
    next hv1 =>
      split at hp
      next e h28 =>
        have := readBigUInt64BE_error_inv h28
        subst this
        simp at hp
      next asize h28 =>
        simp at hp
    next hv1 =>
      simp at hp
  · intro hm
    unfold parseMilimgContainer
    rw [if_pos hm]

/-- Witness for C4: the buffer whose first 8 bytes spell `"Milimg01"`
fails with the invalid-magic `FormatError`. -/
theorem parse_magic_check_witness :
    parseMilimgContainer exBadMagic =
      .error (.formatError "File format error: invalid magic number") :=
  (parse_magic_check exBadMagic).mpr (by decide)

/-- Counterexample to C4 as stated: a buffer whose first byte is `0xCD`
— so its first 8 bytes are not `"Milimg00"` — is accepted, because the
ascii decoding clears the high bit before the comparison. -/
theorem parse_magic_check_counterexample :
    parseMilimgContainer exHiBitMagic = .ok ⟨0, 1, 1, [], none⟩ ∧
    subarray exHiBitMagic 0 8 ≠ milimgMagic :=
  ⟨rfl, by decide⟩

/-! ## C5 — version gate -/

/-- C5: with a passing magic and an in-bounds version field, a version
outside `{0, 1}` makes the parse fail with `UnsupportedVersionError`
carrying exactly that version value; conversely the parse only ever
fails with `UnsupportedVersionError` when the version field is outside
`{0, 1}`, so never for versions 0 or 1. -/
theorem parse_version_gate (B : List Nat) :
    (asciiMagicField B = milimgMagic → 12 ≤ B.length →
      u32be B 8 ≠ 0 → u32be B 8 ≠ 1 →
      parseMilimgContainer B = .error (.unsupportedVersion (u32be B 8))) ∧
    (∀ n, parseMilimgContainer B = .error (.unsupportedVersion n) →
      n = u32be B 8 ∧ n ≠ 0 ∧ n ≠ 1) := by
  constructor
  · intro hm hl h0 h1
    have h8 := readUInt32BE_eq_ok B 8 (by omega)
    unfold parseMilimgContainer
    rw [if_neg (by simp [hm]), h8]
    simp [h0, h1]
  · intro n hp
    unfold parseMilimgContainer at hp
    split at hp
    · simp at hp
    next hmagic =>
    split at hp
    next e h8 =>
      have := readUInt32BE_error_inv h8
      subst this
      simp at hp
    next version h8 =>
    split at hp
    next hver =>
      obtain ⟨hb8, he8⟩ := readUInt32BE_ok_inv h8
      injection hp with hp
      injection hp with hp
      subst hp
      exact ⟨he8, hver.1, hver.2⟩
    next hver =>
    split at hp
    next e h12 =>
      have := readUInt32BE_error_inv h12
      subst this
      simp at hp
    next width h12 =>
    split at hp
    next e h16 =>
      have := readUInt32BE_error_inv h16
      subst this
      simp at hp
    next height h16 =>
    split at hp
    next e h20 =>
      have := readBigUInt64BE_error_inv h20
      subst this
      simp at hp
    next csize h20 =>
    split at hp
    next hv1 =>
      split at hp
      next e h28 =>
        have := readBigUInt64BE_error_inv h28
        subst this
        simp at hp
      next asize h28 =>
        simp at hp
    next hv1 =>
      simp at hp

/-- Witness for C5: the version-2 buffer fails with
`UnsupportedVersionError(2)`. -/
theorem parse_version_gate_witness :
    parseMilimgContainer exVersion2 = .error (.unsupportedVersion (u32be exVersion2 8)) ∧
    (2 = u32be exVersion2 8 ∧ 2 ≠ 0 ∧ 2 ≠ 1) :=
  ⟨(parse_version_gate exVersion2).1 (by decide) (by decide) (by decide) (by decide),
   (parse_version_gate exVersion2).2 2 rfl⟩

/-! ## Pointwise lemmas about the canvas model -/

theorem getD_range_map (f : Nat → Nat) (n i : Nat) (h : i < n) :
    ((List.range n).map f).getD i 0 = f i := by
  rw [List.getD_eq_getElem _ _ (by simpa using h), List.getElem_map, List.getElem_range]

theorem length_getImageData (w h : Nat) (f : Plane) :
    (getImageData w h f).length = 4 * (w * h) := by
  simp [getImageData]

theorem length_overwriteAlpha (d ad : List Nat) :
    (overwriteAlpha d ad).length = d.length := by
  simp [overwriteAlpha]

theorem getD_getImageData (w h : Nat) (f : Plane) (i : Nat) (hi : i < 4 * (w * h)) :
    (getImageData w h f).getD i 0 = canvasSample w f i :=
  getD_range_map _ _ _ hi

theorem getD_overwriteAlpha (d ad : List Nat) (i : Nat) (hi : i < d.length) :
    (overwriteAlpha d ad).getD i 0 =
      if i % 4 = 3 then ad.getD (i - 3) 0 else d.getD i 0 :=
  getD_range_map _ _ _ hi

/-- On a canvas of the frame's own width, sample `4*k + j` of the drawn
image is sample `4*k + j` of the frame, for every pixel `k` of the
canvas. -/
theorem canvasSample_matching (w : Nat) (f : Plane) (hfw : f.width = w)
    (k j : Nat) (hk : k < w * f.height) (hj : j < 4) :
    canvasSample w f (4 * k + j) = f.data.getD (4 * k + j) 0 := by
  have hw0 : 0 < w := by
    rcases Nat.eq_zero_or_pos w with h0 | h0
    · subst h0
      simp at hk
    · exact h0
  unfold canvasSample
  have h1 : (4 * k + j) / 4 = k := by omega
  have h2 : (4 * k + j) % 4 = j := by omega
  rw [h1, h2, hfw]
  have hx : k % w < w := Nat.mod_lt _ hw0
  have hy : k / w < f.height := by
    rw [Nat.div_lt_iff_lt_mul hw0]
    rwa [Nat.mul_comm] at hk
  rw [if_pos ⟨hx, hy⟩]
  have hdm := Nat.div_add_mod k w
  congr 1
  rw [Nat.mul_comm (k / w) w, hdm]

/-- Sample `4*(y*w + x) + j` of a `w`-wide canvas with `frame` drawn at
the origin: the frame's own sample where the frame covers pixel
`(x, y)`, transparent black (`0`) outside the frame's extent. -/
theorem canvasSample_at (w : Nat) (f : Plane) (x y j : Nat)
    (hx : x < w) (hj : j < 4) :
    canvasSample w f (4 * (y * w + x) + j) =
      if x < f.width ∧ y < f.height
        then f.data.getD (4 * (y * f.width + x) + j) 0 else 0 := by
  have hw0 : 0 < w := by omega
  unfold canvasSample
  have h1 : (4 * (y * w + x) + j) / 4 = y * w + x := by omega
  have h2 : (4 * (y * w + x) + j) % 4 = j := by omega
  rw [h1, h2]
  have h3 : (y * w + x) % w = x := by
    rw [Nat.add_comm, Nat.add_mul_mod_self_right, Nat.mod_eq_of_lt hx]
  have h4 : (y * w + x) / w = y := by
    rw [Nat.add_comm, Nat.add_mul_div_right _ _ hw0, Nat.div_eq_of_lt hx]
    omega
  rw [h3, h4]

/-! ## C2 — alpha compositing -/

/-- C2: for color and alpha planes of identical dimensions, every pixel
of the composited output keeps the color plane's red, green and blue
samples unchanged, takes its alpha from the alpha plane's red channel,
and no further samples exist beyond the `4 * width * height` of the
output. -/
theorem combine_planes_channels (c a : Plane) (hw : a.width = c.width)
    (hh : a.height = c.height) (k : Nat) (hk : k < c.width * c.height) :
    (∀ j, j < 3 → (combineRGBAFrames c a).data.getD (4 * k + j) 0 =
      c.data.getD (4 * k + j) 0) ∧
    (combineRGBAFrames c a).data.getD (4 * k + 3) 0 = a.data.getD (4 * k) 0 ∧
    (combineRGBAFrames c a).data.length = 4 * (c.width * c.height) := by
  have hdlen : (getImageData c.width c.height c).length = 4 * (c.width * c.height) :=
    length_getImageData c.width c.height c
  refine ⟨?_, ?_, ?_⟩
  · intro j hj
    show (overwriteAlpha (getImageData c.width c.height c)
      (getImageData c.width c.height a)).getD (4 * k + j) 0 = _
    rw [getD_overwriteAlpha _ _ _ (by omega), if_neg (by omega),
      getD_getImageData _ _ _ _ (by omega),
      canvasSample_matching c.width c rfl k j hk (by omega)]
  · show (overwriteAlpha (getImageData c.width c.height c)
      (getImageData c.width c.height a)).getD (4 * k + 3) 0 = _
    rw [getD_overwriteAlpha _ _ _ (by omega), if_pos (by omega),
      show 4 * k + 3 - 3 = 4 * k + 0 from by omega,
      getD_getImageData _ _ _ _ (by omega),
      canvasSample_matching c.width a hw k 0 (by rw [hh]; exact hk) (by omega)]
    rw [Nat.add_zero]
  · show (overwriteAlpha (getImageData c.width c.height c)
      (getImageData c.width c.height a)).length = _
    rw [length_overwriteAlpha, hdlen]

/-- The constant 1×1 color plane RGBA = (10, 20, 30, 255). -/
def exColorPx : Plane := ⟨1, 1, [10, 20, 30, 255]⟩

/-- The constant 1×1 alpha plane with red channel 128. -/
def exAlphaPx : Plane := ⟨1, 1, [128, 128, 128, 255]⟩

/-- Witness for C2 at the claim's concrete planes: RGBA (10, 20, 30, 255)
combined with alpha red 128 keeps RGB and takes alpha 128. -/
theorem combine_planes_channels_witness :
    (∀ j, j < 3 → (combineRGBAFrames exColorPx exAlphaPx).data.getD (4 * 0 + j) 0 =
      exColorPx.data.getD (4 * 0 + j) 0) ∧
    (combineRGBAFrames exColorPx exAlphaPx).data.getD (4 * 0 + 3) 0 =
      exAlphaPx.data.getD (4 * 0) 0 ∧
    (combineRGBAFrames exColorPx exAlphaPx).data.length =
      4 * (exColorPx.width * exColorPx.height) :=
  combine_planes_channels exColorPx exAlphaPx rfl rfl 0 (by decide)

/-! ## C10 — output dimensions -/

/-- C10: the composited plane always has the color frame's display
width and height; the alpha frame's dimensions never influence the
output size, since the output canvas is allocated from the color
frame's dimensions. -/
theorem combine_output_dimensions (c a : Plane) :
    (combineRGBAFrames c a).width = c.width ∧
    (combineRGBAFrames c a).height = c.height :=
  ⟨rfl, rfl⟩

/-! ## C6 — dimension mismatch -/

/-- C6 (amended): `combineRGBAFrames` performs no dimension check and
never fails; with mismatched planes it silently produces an output of
the color frame's dimensions, whose alpha at pixel `(x, y)` is the
alpha frame's red channel where the alpha frame covers the pixel and
the canvas's transparent black `0` (a silent crop/pad) outside it. -/
theorem combine_no_dimension_check (c a : Plane) (x y : Nat)
    (hx : x < c.width) (hy : y < c.height) :
    (combineRGBAFrames c a).width = c.width ∧
    (combineRGBAFrames c a).height = c.height ∧
    (combineRGBAFrames c a).data.getD (4 * (y * c.width + x) + 3) 0 =
      (if x < a.width ∧ y < a.height
        then a.data.getD (4 * (y * a.width + x)) 0 else 0) := by
  refine ⟨rfl, rfl, ?_⟩
  have hk : y * c.width + x < c.width * c.height := by
    have h1 : y * c.width + x < (y + 1) * c.width := by
      rw [Nat.succ_mul]
      omega
    have h2 : (y + 1) * c.width ≤ c.height * c.width :=
      Nat.mul_le_mul_right _ (Nat.succ_le_of_lt hy)
    rw [Nat.mul_comm c.width c.height]
    omega
  show (overwriteAlpha (getImageData c.width c.height c)
    (getImageData c.width c.height a)).getD (4 * (y * c.width + x) + 3) 0 = _
  rw [getD_overwriteAlpha _ _ _ (by rw [length_getImageData]; omega),
    if_pos (by omega),
    show 4 * (y * c.width + x) + 3 - 3 = 4 * (y * c.width + x) + 0 from by omega,
    getD_getImageData _ _ _ _ (by omega),
    canvasSample_at c.width a x y 0 hx (by omega)]
  rw [Nat.add_zero]

/-- A 4×4 color plane, RGBA = (10, 20, 30, 255) at every pixel. -/
def exColor44 : Plane :=
  ⟨4, 4,
   [10,20,30,255, 10,20,30,255, 10,20,30,255, 10,20,30,255,
    10,20,30,255, 10,20,30,255, 10,20,30,255, 10,20,30,255,
    10,20,30,255, 10,20,30,255, 10,20,30,255, 10,20,30,255,
    10,20,30,255, 10,20,30,255, 10,20,30,255, 10,20,30,255]⟩

/-- A 2×2 alpha plane, RGBA = (128, 128, 128, 255) at every pixel. -/
def exAlpha22 : Plane :=
  ⟨2, 2, [128,128,128,255, 128,128,128,255, 128,128,128,255, 128,128,128,255]⟩

/-- Witness for C6 at the 4×4 / 2×2 pair, at pixel (3, 3), which the
alpha frame does not cover. -/
theorem combine_no_dimension_check_witness :
    (combineRGBAFrames exColor44 exAlpha22).width = exColor44.width ∧
    (combineRGBAFrames exColor44 exAlpha22).height = exColor44.height ∧
    (combineRGBAFrames exColor44 exAlpha22).data.getD
        (4 * (3 * exColor44.width + 3) + 3) 0 =
      (if 3 < exAlpha22.width ∧ 3 < exAlpha22.height
        then exAlpha22.data.getD (4 * (3 * exAlpha22.width + 3)) 0 else 0) :=
  combine_no_dimension_check exColor44 exAlpha22 3 3 (by decide) (by decide)

/-- Counterexample to C6 as stated: compositing the 4×4 color plane
with the 2×2 alpha plane does not fail with any error — it produces a
4×4 output, the alpha silently zero-padded outside the 2×2 extent. -/
theorem combine_no_dimension_check_counterexample :
    combineRGBAFrames exColor44 exAlpha22 =
      ⟨4, 4,
       [10,20,30,128, 10,20,30,128, 10,20,30,0, 10,20,30,0,
        10,20,30,128, 10,20,30,128, 10,20,30,0, 10,20,30,0,
        10,20,30,0, 10,20,30,0, 10,20,30,0, 10,20,30,0,
        10,20,30,0, 10,20,30,0, 10,20,30,0, 10,20,30,0]⟩ ∧
    exAlpha22.width ≠ exColor44.width :=
  ⟨rfl, by decide⟩

/-! ## C7 / C8 — the decode pipeline -/

/-- C7: for a version-1 container whose color payload decodes to a
frame but whose alpha payload yields no decoded frame (the decoder
resolves `null`), `decodeMilimg` does not fail: it skips the alpha
compositing and emits the output produced from the color frame
alone. -/
theorem decode_alpha_fallback
    (decode : List Nat → Except MilimgError (Option Plane))
    (png : Plane → List Nat) (buffer : List Nat)
    (h : MilimgHeader) (ap : List Nat) (cf : Plane)
    (hp : parseMilimgContainer buffer = .ok h)
    (hv : h.version = 1) (hap : h.alphaPayload = some ap)
    (hcf : decodeAV1Frame decode h.colorPayload = .ok (some cf))
    (hac : decodeAV1Frame decode ap = .ok none) :
    decodeMilimg decode png buffer = .ok (png cf) := by
  unfold decodeMilimg
  rw [hp]
  simp only [hcf, hv, hap, hac]

/-- Witness decoder: decodes the payload `[170]` to the 1×1 color
plane, resolves `null` for everything else. -/
def exDecode : List Nat → Except MilimgError (Option Plane) := fun p =>
  if p = [170] then .ok (some exColorPx) else .ok none

/-- Witness for C7: the concrete version-1 container whose alpha
payload `[187]` decodes to nothing falls back to the color frame. -/
theorem decode_alpha_fallback_witness :
    decodeMilimg exDecode Plane.data exV1Container = .ok (Plane.data exColorPx) :=
  decode_alpha_fallback exDecode Plane.data exV1Container exV1Header [187] exColorPx
    rfl rfl rfl rfl rfl

/-- A version-0 container declaring a zero-length color payload. -/
def exV0Empty : List Nat :=
  [77,105,108,105,109,103,48,48, 0,0,0,0, 0,0,0,1, 0,0,0,1,
   0,0,0,0,0,0,0,0]

/-- C8: whenever the color payload yields no decoded frame — in
particular for a zero-length color payload, which `decodeAV1Frame`
resolves to `null` without consulting the decoder — `decodeMilimg`
terminates with the color-frame decode failure and produces no
output. -/
theorem decode_color_failure
    (decode : List Nat → Except MilimgError (Option Plane))
    (png : Plane → List Nat) (buffer : List Nat) (h : MilimgHeader)
    (hp : parseMilimgContainer buffer = .ok h)
    (hcf : decodeAV1Frame decode h.colorPayload = .ok none) :
    decodeMilimg decode png buffer =
      .error (.decodeFailure "Failed to decode color frame") := by
  unfold decodeMilimg
  rw [hp]
  simp only [hcf]

/-- Witness for C8: the container with a zero-length color payload
fails with the color-frame decode failure under any decoder. -/
theorem decode_color_failure_witness :
    decodeMilimg exDecode Plane.data exV0Empty =
      .error (.decodeFailure "Failed to decode color frame") :=
  decode_color_failure exDecode Plane.data exV0Empty ⟨0, 1, 1, [], none⟩ rfl rfl

end Milimg
